import Mathlib

/-!
# Shallow embedding of the RealTime-pipeline repository

Source files embedded here:
* `src/lambda/handler.py`  — the SQS batch lambda (validation, idempotent
  persistence to DynamoDB, SNS alerting, partial-batch failure report);
* `src/tools/send_test_events.py` — the adaptive test-event sender
  (oversize splitting, per-entry retry with exponential backoff).

Python values flowing through the handler are modelled by the inductive
`PyVal`.  The handler parses message bodies with
`json.loads(body, parse_float=decimal.Decimal)`, so the payloads contain no
binary floats: fractional numeric literals become `decimal.Decimal` values
(constructor `pydec`), integer literals become Python ints (`pyint`).
Exact decimal numbers are modelled by `DecNum` (integer mantissa over a
power-of-ten scale), with fully computable arithmetic; Python `float(...)`
conversions are modelled as exact `DecNum` arithmetic (the inputs reaching
them in this code are decimal values, ints, bools and numeric strings).
Non-finite float literals ("inf", "nan") and underscore separators are
outside the model.

Exceptions are modelled with `Except String`; the string is the kind of the
Python exception raised.
-/

/-- Exact decimal number: `mant / 10 ^ scale`.  This is the model of
`decimal.Decimal` values (and of the numeric results of Python arithmetic in
this code, which in the model is kept exact). -/
structure DecNum where
  mant : Int
  scale : Nat
deriving DecidableEq, Repr

namespace DecNum

/-- `10 ^ n` as an integer. -/
def p10 (n : Nat) : Int := (10 : Int) ^ n

def ofInt (n : Int) : DecNum := ⟨n, 0⟩

/-- Numeric value as a rational, for stating semantic facts. -/
def toRat (a : DecNum) : ℚ := (a.mant : ℚ) / (10 : ℚ) ^ a.scale

/-- Numeric equality (`Decimal.__eq__` compares values, not representations). -/
def eqv (a b : DecNum) : Bool := a.mant * p10 b.scale = b.mant * p10 a.scale

def le (a b : DecNum) : Bool := a.mant * p10 b.scale ≤ b.mant * p10 a.scale

def lt (a b : DecNum) : Bool := a.mant * p10 b.scale < b.mant * p10 a.scale

def add (a b : DecNum) : DecNum :=
  ⟨a.mant * p10 b.scale + b.mant * p10 a.scale, a.scale + b.scale⟩

def mul (a b : DecNum) : DecNum := ⟨a.mant * b.mant, a.scale + b.scale⟩

def sub (a b : DecNum) : DecNum :=
  ⟨a.mant * p10 b.scale - b.mant * p10 a.scale, a.scale + b.scale⟩

def abs (a : DecNum) : DecNum := ⟨|a.mant|, a.scale⟩

theorem p10_pos (n : Nat) : (0 : Int) < p10 n := pow_pos (by norm_num) n

theorem toRat_le (a b : DecNum) : a.le b = true ↔ a.toRat ≤ b.toRat := by
  unfold le toRat
  rw [div_le_div_iff₀ (by positivity) (by positivity), decide_eq_true_eq]
  constructor
  · intro h
    have : ((a.mant * p10 b.scale : Int) : ℚ) ≤ ((b.mant * p10 a.scale : Int) : ℚ) :=
      Int.cast_le.mpr h
    push_cast at this
    simpa [p10] using this
  · intro h
    have : ((a.mant * p10 b.scale : Int) : ℚ) ≤ ((b.mant * p10 a.scale : Int) : ℚ) := by
      push_cast
      simpa [p10] using h
    exact_mod_cast this

theorem toRat_lt (a b : DecNum) : a.lt b = true ↔ a.toRat < b.toRat := by
  unfold lt toRat
  rw [div_lt_div_iff₀ (by positivity) (by positivity), decide_eq_true_eq]
  constructor
  · intro h
    have : ((a.mant * p10 b.scale : Int) : ℚ) < ((b.mant * p10 a.scale : Int) : ℚ) :=
      Int.cast_lt.mpr h
    push_cast at this
    simpa [p10] using this
  · intro h
    have : ((a.mant * p10 b.scale : Int) : ℚ) < ((b.mant * p10 a.scale : Int) : ℚ) := by
      push_cast
      simpa [p10] using h
    exact_mod_cast this

theorem toRat_eqv (a b : DecNum) : a.eqv b = true ↔ a.toRat = b.toRat := by
  unfold eqv toRat
  rw [div_eq_div_iff (by positivity) (by positivity), decide_eq_true_eq]
  constructor
  · intro h
    have : ((a.mant * p10 b.scale : Int) : ℚ) = ((b.mant * p10 a.scale : Int) : ℚ) := by
      exact_mod_cast h
    push_cast at this
    simpa [p10] using this
  · intro h
    have : ((a.mant * p10 b.scale : Int) : ℚ) = ((b.mant * p10 a.scale : Int) : ℚ) := by
      push_cast
      simpa [p10] using h
    exact_mod_cast this

end DecNum

mutual

/-- Model of the Python values that occur in the handler: results of
`json.loads(..., parse_float=decimal.Decimal)` and values built from them. -/
inductive PyVal where
  | pynone
  | pybool (b : Bool)
  | pyint  (n : Int)
  | pydec  (d : DecNum)
  | pystr  (s : String)
  | pylist (xs : PyList)
  | pydict (kvs : PyDict)
deriving DecidableEq, Repr

/-- A Python list of `PyVal`s. -/
inductive PyList where
  | nil
  | cons (hd : PyVal) (tl : PyList)
deriving DecidableEq, Repr

/-- A Python dict with string keys (JSON objects have string keys). -/
inductive PyDict where
  | nil
  | cons (k : String) (v : PyVal) (tl : PyDict)
deriving DecidableEq, Repr

end

namespace PyList

def length : PyList → Nat
  | .nil => 0
  | .cons _ tl => 1 + tl.length

def toList : PyList → List PyVal
  | .nil => []
  | .cons hd tl => hd :: tl.toList

def ofList : List PyVal → PyList
  | [] => .nil
  | x :: xs => .cons x (ofList xs)

theorem length_toList : (xs : PyList) → xs.toList.length = xs.length
  | .nil => rfl
  | .cons hd tl => by simp [toList, length, length_toList tl, Nat.add_comm]

end PyList

namespace PyDict

/-- Key membership (`k in d`). -/
def mem (d : PyDict) (key : String) : Bool :=
  match d with
  | .nil => false
  | .cons k _ tl => k = key || tl.mem key

/-- Lookup (`d[k]` / `d.get(k)`); keys are unique in dicts produced by
`json.loads`, so first match is the binding. -/
def get? (d : PyDict) (key : String) : Option PyVal :=
  match d with
  | .nil => none
  | .cons k v tl => if k = key then some v else tl.get? key

/-- `d.get(k, default)`. -/
def getD (d : PyDict) (key : String) (dflt : PyVal) : PyVal :=
  (d.get? key).getD dflt

/-- Assignment `d[k] = v`: updates the first binding of `k` in place, else
appends — same key-position semantics as CPython dicts. -/
def set (d : PyDict) (key : String) (v : PyVal) : PyDict :=
  match d with
  | .nil => .cons key v .nil
  | .cons k w tl => if k = key then .cons k v tl else .cons k w (tl.set key v)

theorem get?_set_self : (d : PyDict) → (key : String) → (v : PyVal) →
    (d.set key v).get? key = some v
  | .nil, key, v => by simp [set, get?]
  | .cons k w tl, key, v => by
      by_cases h : k = key
      · simp [set, h, get?]
      · simp [set, h, get?, get?_set_self tl key v]

theorem get?_set_ne : (d : PyDict) → (key k' : String) → (v : PyVal) →
    key ≠ k' → (d.set key v).get? k' = d.get? k'
  | .nil, key, k', v, h => by simp [set, get?, h]
  | .cons k w tl, key, k', v, h => by
      by_cases hk : k = key
      · subst hk
        simp [set, get?, h]
      · simp only [set, if_neg hk]
        by_cases hk' : k = k'
        · simp [get?, hk']
        · simp [get?, hk', get?_set_ne tl key k' v h]

end PyDict

/-- Python truthiness, for `x or y` (`bool(x)`). -/
def pyTruthy : PyVal → Bool
  | .pynone => false
  | .pybool b => b
  | .pyint n => n ≠ 0
  | .pydec d => !(d.eqv (DecNum.ofInt 0))
  | .pystr s => s ≠ ""
  | .pylist xs => xs.length ≠ 0
  | .pydict d => d matches .cons _ _ _

/-- One character of a decimal digit. -/
def digit? (c : Char) : Option Nat :=
  if c.isDigit then some (c.toNat - '0'.toNat) else none

/-- Parse a run of digits; returns accumulated value, count of digits
consumed, and the rest. -/
def takeDigits : List Char → Nat → Nat → Nat × Nat × List Char
  | [], acc, cnt => (acc, cnt, [])
  | c :: cs, acc, cnt =>
      match digit? c with
      | some d => takeDigits cs (acc * 10 + d) (cnt + 1)
      | none => (acc, cnt, c :: cs)

/-- Parse a (Python/JSON style) decimal numeral `[+-]?digits[.digits][(e|E)[+-]?digits]`
into an exact decimal.  Returns `none` when the string is not such a numeral.
Models `float(s)` on numeric strings (kept exact in the model); non-finite
literals, underscores and surrounding whitespace are outside the model. -/
def parseDecNum (s : String) : Option DecNum :=
  let cs := s.toList
  let (sign, cs) : Int × List Char :=
    match cs with
    | '-' :: rest => (-1, rest)
    | '+' :: rest => (1, rest)
    | _ => (1, cs)
  let (ipart, icnt, cs) := takeDigits cs 0 0
  let (fpart, fcnt, cs) :=
    match cs with
    | '.' :: rest => takeDigits rest 0 0
    | _ => (0, 0, cs)
  if icnt = 0 ∧ fcnt = 0 then none
  else
    let mant : Int := sign * (ipart * 10 ^ fcnt + fpart)
    match cs with
    | [] => some ⟨mant, fcnt⟩
    | e :: rest =>
        if e = 'e' ∨ e = 'E' then
          let (esign, rest) : Bool × List Char :=
            match rest with
            | '-' :: r => (true, r)
            | '+' :: r => (false, r)
            | _ => (false, rest)
          let (epart, ecnt, rest) := takeDigits rest 0 0
          if ecnt = 0 ∨ rest ≠ [] then none
          else if esign then some ⟨mant, fcnt + epart⟩
          else some ⟨mant * DecNum.p10 epart, fcnt⟩
        else none

/-- Model of Python `float(v)`: `none` means the conversion raises
(`TypeError`/`ValueError`).  `float(True) = 1.0` (bool is an int subclass);
decimals convert by value (kept exact in the model). -/
def pyFloat : PyVal → Option DecNum
  | .pydec d => some d
  | .pyint n => some (DecNum.ofInt n)
  | .pybool b => some (DecNum.ofInt (if b then 1 else 0))
  | .pystr s => parseDecNum s
  | .pynone => none
  | .pylist _ => none
  | .pydict _ => none

/-! ## `src/lambda/handler.py` -/

namespace Handler

/-- Outcome of one Python call that may raise: `.error e` models an
exception of kind `e` escaping the call. -/
abbrev PyRes (α : Type) := Except String α

mutual

/-- `_to_decimal` (handler.py:27-38): recursively convert numeric leaves to
`Decimal` for DynamoDB.  The source tests `isinstance(obj, float) or
isinstance(obj, int)`; payloads decoded with `parse_float=decimal.Decimal`
contain no Python floats, so in the model that test holds exactly for ints
and bools (Python `bool` is a subclass of `int`).  On a bool it computes
`decimal.Decimal(str(True))`, which raises `InvalidOperation` — hence the
`.error` branch.  `Decimal(str(n))` on an int `n` is the exact decimal `n`.
Already-`Decimal` values (and strings, `None`) fall through unchanged. -/
def to_decimal : PyVal → PyRes PyVal
  | .pydict kvs => do pure (.pydict (← to_decimal_dict kvs))
  | .pylist xs => do pure (.pylist (← to_decimal_list xs))
  | .pybool _ => .error "InvalidOperation"
  | .pyint n => pure (.pydec (DecNum.ofInt n))
  | .pydec d => pure (.pydec d)
  | .pystr s => pure (.pystr s)
  | .pynone => pure .pynone

def to_decimal_list : PyList → PyRes PyList
  | .nil => pure .nil
  | .cons hd tl => do pure (.cons (← to_decimal hd) (← to_decimal_list tl))

def to_decimal_dict : PyDict → PyRes PyDict
  | .nil => pure .nil
  | .cons k v tl => do pure (.cons k (← to_decimal v) (← to_decimal_dict tl))

end

/-- `float(v)` as an exception-raising call. -/
def floatE (v : PyVal) : PyRes DecNum :=
  match pyFloat v with
  | some d => pure d
  | none => .error "float() conversion failed"

/-- `_sum_items` (handler.py:40-46).  `it.get` on a non-dict raises
`AttributeError`; `float(...)` may raise; `unitPrice or price` uses Python
truthiness. -/
def sum_items (items : PyList) : PyRes DecNum := go items (DecNum.ofInt 0)
where
  go : PyList → DecNum → PyRes DecNum
    | .nil, total => pure total
    | .cons it tl, total =>
        match it with
        | .pydict d => do
            let qty ← floatE (d.getD "qty" (.pyint 0))
            let upr := d.getD "unitPrice" (.pyint 0)
            let price ← floatE (if pyTruthy upr then upr else d.getD "price" (.pyint 0))
            go tl (total.add (qty.mul price))
        | _ => .error "AttributeError"

/-- The fixed absolute tolerance `0.01` of the line-total check. -/
def tol : DecNum := ⟨1, 2⟩

/-- `isinstance(payload["items"], list) and len(payload["items"]) > 0`
(handler.py:54), on the value found for `items`. -/
def items_ok (v : PyVal) : Bool :=
  match v with
  | .pylist xs => xs.length ≠ 0
  | _ => false

/-- The warning condition of the secondary check (handler.py:62):
`computed > 0 and abs(computed - float(payload["amount"])) > 0.01`. -/
def warn_cond (computed amt : DecNum) : Bool :=
  (DecNum.ofInt 0).lt computed && tol.lt ((computed.sub amt).abs)

/-- `validate` (handler.py:49-67).  Returns the warning flag on success
(`true` iff the non-fatal line-total warning was logged); `.error` models a
raised `ValueError` (or a `float` conversion error from
`float(payload["amount"])`).  The final try/except swallows every exception
of the secondary check. -/
def validate (payload : PyDict) : PyRes Bool := do
  let required := ["order_id", "user_id", "amount", "items"]
  match required.find? (fun k => !payload.mem k) with
  | some k => .error ("Missing field: " ++ k)
  | none =>
    let items := payload.getD "items" .pynone
    if !items_ok items then .error "items must be a non-empty list"
    else do
      let amt ← floatE (payload.getD "amount" .pynone)
      if amt.lt (DecNum.ofInt 0) then .error "amount must be non-negative"
      else
        match items with
        | .pylist xs =>
            match sum_items xs with
            | .ok computed => pure (warn_cond computed amt)
            | .error _ => pure false
        | _ => pure false

/-- External-world state visible to the handler: the DynamoDB table (list of
key/item pairs, keyed by the item's `order_id` value) and the list of SNS
messages published so far. -/
structure St where
  table : List (PyVal × PyVal)
  alerts : List PyVal
deriving DecidableEq, Repr

/-- Handler configuration and fault model: the environment-derived settings
(`ALERT_AMOUNT`, `SKIP_VALIDATION`) plus oracles saying which external calls
fail with a transient error (`put_fault st item` — a non-conditional-check
`ClientError` from `table.put_item`; `sns_fault st msg` — a failed
`sns.publish`). -/
structure Ctx where
  alertAmount : DecNum
  skipValidation : Bool
  put_fault : St → PyVal → Bool
  sns_fault : St → PyVal → Bool

/-- Key lookup in the modelled DynamoDB table. -/
def tableHas (t : List (PyVal × PyVal)) (key : PyVal) : Bool :=
  t.any (fun kv => kv.1 = key)

/-- `item_full = {**payload, "ts": int(time.time()), "status": "OK"}`
(handler.py:69-73): all payload fields, with server-assigned `ts` and
`status` set last (overwriting payload fields of those names, per dict
update semantics). -/
def build_item (payload : PyDict) (now : Int) : PyDict :=
  (payload.set "ts" (.pyint now)).set "status" (.pystr "OK")

/-- `persist` (handler.py:68-86).  Builds `item_full`, converts it with
`_to_decimal` (outside the try: its exceptions propagate), then does the
conditional `put_item`; `ConditionalCheckFailedException` (key already
present) is caught and treated as success.  The item's `order_id` attribute
is the table key; an item without it makes `put_item` raise a
`ClientError`.  Returns the new state on success. -/
def persist (ctx : Ctx) (now : Int) (payload : PyDict) (st : St) : PyRes St := do
  let item ← to_decimal (.pydict (build_item payload now))
  match item with
  | .pydict d =>
      match d.get? "order_id" with
      | none => .error "ClientError: ValidationException (missing key)"
      | some key =>
          if tableHas st.table key then
            -- ConditionalCheckFailedException caught: duplicate, no-op success
            pure st
          else if ctx.put_fault st item then .error "ClientError: put_item"
          else pure { st with table := st.table ++ [(key, item)] }
  | _ => .error "unreachable: to_decimal preserves dicts"

/-- `maybe_alert` (handler.py:89-105).  `float(payload["amount"])` failing
(missing key included) yields the sentinel `-1.0`; if `amt >= ALERT_AMOUNT`
an alert message is built and published.  A publish fault raises. -/
def maybe_alert (ctx : Ctx) (now : Int) (payload : PyDict) (st : St) : PyRes St :=
  let amt : DecNum :=
    match payload.get? "amount" with
    | none => ⟨-1, 0⟩
    | some v =>
        match pyFloat v with
        | some d => d
        | none => ⟨-1, 0⟩
  if ctx.alertAmount.le amt then
    let message : PyVal := .pydict
      (.cons "event" (.pystr "LARGE_ORDER")
      (.cons "order_id" (payload.getD "order_id" .pynone)
      (.cons "user_id" (payload.getD "user_id" .pynone)
      (.cons "amount" (.pydec amt)
      (.cons "currency" (payload.getD "currency" (.pystr "USD"))
      (.cons "ts" (.pyint now) .nil))))))
    if ctx.sns_fault st message then .error "ClientError: sns.publish"
    else pure { st with alerts := st.alerts ++ [message] }
  else pure st

end Handler

namespace Handler

/-- JSON whitespace. -/
def isWs (c : Char) : Bool := c = ' ' || c = '\t' || c = '\n' || c = '\r'

def skipWs : List Char → List Char
  | [] => []
  | c :: cs => if isWs c then skipWs cs else c :: cs

/-- Prefix test for keyword literals. -/
def stripLit : List Char → List Char → Option (List Char)
  | [], cs => some cs
  | _, [] => none
  | l :: ls, c :: cs => if l = c then stripLit ls cs else none

/-- Hexadecimal digit test (`Char.isHexDigit` of newer cores). -/
def isHexDigitC (c : Char) : Bool :=
  c.isDigit || ('a' ≤ c && c ≤ 'f') || ('A' ≤ c && c ≤ 'F')

/-- Value of a hexadecimal digit. -/
def hexVal (c : Char) : Nat :=
  if c.isDigit then c.toNat - '0'.toNat
  else if 'a' ≤ c ∧ c ≤ 'f' then c.toNat - 'a'.toNat + 10
  else c.toNat - 'A'.toNat + 10

/-- Parse a JSON string body after the opening quote.  Handles the JSON
escapes `\" \\ \/ \b \f \n \r \t \uXXXX` (a `\uXXXX` becomes the character
with that code; surrogate-pair recombination is outside the model). -/
def parseJStr : List Char → Option (String × List Char)
  | [] => none
  | '"' :: cs => some ("", cs)
  | '\\' :: 'u' :: h1 :: h2 :: h3 :: h4 :: cs =>
      if isHexDigitC h1 && isHexDigitC h2 && isHexDigitC h3 && isHexDigitC h4 then do
        let c := Char.ofNat (((hexVal h1 * 16 + hexVal h2) * 16 + hexVal h3) * 16 + hexVal h4)
        let (s, rest) ← parseJStr cs
        some (String.mk (c :: s.toList), rest)
      else none
  | '\\' :: e :: cs => do
      let c ← match e with
        | '"' => some '"'
        | '\\' => some '\\'
        | '/' => some '/'
        | 'b' => some '\x08'
        | 'f' => some '\x0c'
        | 'n' => some '\n'
        | 'r' => some '\r'
        | 't' => some '\t'
        | _ => none
      let (s, rest) ← parseJStr cs
      some (String.mk (c :: s.toList), rest)
  | c :: cs => do
      let (s, rest) ← parseJStr cs
      some (String.mk (c :: s.toList), rest)

/-- Parse a JSON number at the head of the input.  Per `json.loads` with
`parse_float=decimal.Decimal`: a literal with a fraction or exponent part is
handed to `Decimal` (exact, → `pydec`), a bare integer literal becomes a
Python int (→ `pyint`).  Two simplifications against `json.loads`: the
model accepts leading zeros, and the non-numeric constants
`NaN`/`Infinity` are outside the model. -/
def parseJNum (cs : List Char) : Option (PyVal × List Char) :=
  let (sign, cs1) : Int × List Char :=
    match cs with
    | '-' :: rest => (-1, rest)
    | _ => (1, cs)
  let (ipart, icnt, cs2) := takeDigits cs1 0 0
  if icnt = 0 then none
  else
    let (hasFrac, fpart, fcnt, cs3) :=
      match cs2 with
      | '.' :: rest =>
          let (f, fc, r) := takeDigits rest 0 0
          (true, f, fc, r)
      | _ => (false, 0, 0, cs2)
    if hasFrac ∧ fcnt = 0 then none
    else
      let (hasExp, expOk, esign, epart, cs4) :=
        match cs3 with
        | e :: rest =>
            if e = 'e' ∨ e = 'E' then
              let (es, rest1) : Bool × List Char :=
                match rest with
                | '-' :: r => (true, r)
                | '+' :: r => (false, r)
                | _ => (false, rest)
              let (ev, ec, r2) := takeDigits rest1 0 0
              (true, ec != 0, es, ev, r2)
            else (false, true, false, 0, cs3)
        | [] => (false, true, false, 0, [])
      if hasExp ∧ !expOk then none
      else if !hasFrac ∧ !hasExp then
        some (.pyint (sign * ipart), cs2)
      else
        let mant : Int := sign * (ipart * 10 ^ fcnt + fpart)
        let d : DecNum :=
          if esign then ⟨mant, fcnt + epart⟩
          else ⟨mant * DecNum.p10 epart, fcnt⟩
        some (.pydec d, cs4)

mutual

/-- One JSON value at the head of the input (whitespace already allowed
before it); fuel bounds the recursion depth. -/
def parseJVal : Nat → List Char → Option (PyVal × List Char)
  | 0, _ => none
  | fuel + 1, cs =>
    match skipWs cs with
    | [] => none
    | c :: cs' =>
      match c with
      | 'n' => do let rest ← stripLit ['u', 'l', 'l'] cs'; some (.pynone, rest)
      | 't' => do let rest ← stripLit ['r', 'u', 'e'] cs'; some (.pybool true, rest)
      | 'f' => do let rest ← stripLit ['a', 'l', 's', 'e'] cs'; some (.pybool false, rest)
      | '"' => do
          let (s, rest) ← parseJStr cs'
          some (.pystr s, rest)
      | '[' =>
          (match skipWs cs' with
           | ']' :: rest => some (.pylist .nil, rest)
           | _ => do
               let (xs, rest) ← parseJElems fuel cs'
               some (.pylist xs, rest))
      | '{' =>
          (match skipWs cs' with
           | '}' :: rest => some (.pydict .nil, rest)
           | _ => do
               let (d, rest) ← parseJMembers fuel cs' .nil
               some (.pydict d, rest))
      | _ => parseJNum (c :: cs')

/-- Comma-separated values up to `]`. -/
def parseJElems : Nat → List Char → Option (PyList × List Char)
  | 0, _ => none
  | fuel + 1, cs => do
      let (v, rest) ← parseJVal fuel cs
      match skipWs rest with
      | ',' :: rest' => do
          let (xs, rest'') ← parseJElems fuel rest'
          some (.cons v xs, rest'')
      | ']' :: rest' => some (.cons v .nil, rest')
      | _ => none

/-- Comma-separated `"key": value` members up to `}`; repeated keys update
the earlier binding (CPython dict assignment). -/
def parseJMembers : Nat → List Char → PyDict → Option (PyDict × List Char)
  | 0, _, _ => none
  | fuel + 1, cs, acc => do
      match skipWs cs with
      | '"' :: cs' => do
          let (k, rest) ← parseJStr cs'
          match skipWs rest with
          | ':' :: rest' => do
              let (v, rest'') ← parseJVal fuel rest'
              let acc' := acc.set k v
              match skipWs rest'' with
              | ',' :: rest3 => parseJMembers fuel rest3 acc'
              | '}' :: rest3 => some (acc', rest3)
              | _ => none
          | _ => none
      | _ => none

end

/-- `json.loads(body, parse_float=decimal.Decimal)` (handler.py:117): decode
the whole string as one JSON document (only trailing whitespace allowed);
failure models the raised `JSONDecodeError` (or the `TypeError` when the
body is not a string). -/
def json_loads (body : String) : PyRes PyVal :=
  match parseJVal (2 * body.length + 4) body.toList with
  | some (v, rest) =>
      if skipWs rest = [] then pure v else .error "JSONDecodeError"
  | none => .error "JSONDecodeError"

end Handler

namespace Handler

/-- Per-record outcome inside the loop of `lambda_handler`. -/
inductive RecOutcome where
  | ok
  /-- `ConditionalCheckFailedException` escaping to the per-record handler
  (handler.py:129-131); unreachable in practice since `persist` absorbs it,
  but modelled because the source handles it. -/
  | dupTop
  | fail (e : String)
deriving DecidableEq, Repr

/-- The body of the `for record in records` loop (handler.py:113-135) for
one record, given its dict: decode the body, validate (unless skip mode),
persist, alert.  Returns the outcome together with the state as mutated by
the successful prefix of those steps (a record can be persisted and still
fail at the alert step). -/
def processRecord (ctx : Ctx) (now : Int) (record : PyDict) (st : St) :
    RecOutcome × St :=
  let body := record.getD "body" (.pystr "")
  let decoded : PyRes PyDict :=
    match body with
    | .pystr s =>
        match json_loads s with
        | .ok (.pydict d) => .ok d
        | .ok _ => .error "AttributeError: payload is not a dict"
        | .error e => .error e
    | _ => .error "TypeError: body is not a string"
  match decoded with
  | .error e => (.fail e, st)
  | .ok payload =>
    let validated : PyRes Unit :=
      if !ctx.skipValidation then do
        let _ ← validate payload
        pure ()
      else pure ()
    match validated with
    | .error e => (.fail e, st)
    | .ok _ =>
      match persist ctx now payload st with
      | .error e => (.fail e, st)
      | .ok st1 =>
        match maybe_alert ctx now payload st1 with
        | .error e => (.fail e, st1)
        | .ok st2 => (.ok, st2)

/-- The loop of `lambda_handler` over the `Records` list, threading the
external state and accumulating `batchItemFailures` entries (the
`messageId`s).  `record["messageId"]` is evaluated *outside* the `try`
(handler.py:114), so a non-dict record or a record without a `messageId`
raises out of the whole handler — hence the `Except` at this level. -/
def runRecords (ctx : Ctx) (now : Int) :
    List PyVal → St → PyRes (List PyVal × St)
  | [], st => pure ([], st)
  | r :: rs, st =>
      match r with
      | .pydict record =>
          match record.get? "messageId" with
          | none => .error "KeyError: messageId"
          | some msgId =>
              let (outcome, st') := processRecord ctx now record st
              match outcome with
              | .ok => runRecords ctx now rs st'
              | .dupTop => runRecords ctx now rs st'
              | .fail _ => do
                  let (fs, stF) ← runRecords ctx now rs st'
                  pure (msgId :: fs, stF)
      | _ => .error "TypeError: record is not a dict"

/-- `lambda_handler` (handler.py:108-137).  `event.get("Records", [])`
requires `event` to be a dict and the `Records` value to be a list; then the
loop above runs, and the response
`{"batchItemFailures": [{"itemIdentifier": id}, ...]}` is built.  An
`.error` models an exception escaping the handler to its caller. -/
def lambda_handler (ctx : Ctx) (now : Int) (event : PyVal) (st : St) :
    PyRes (PyVal × St) := do
  match event with
  | .pydict ed =>
      match ed.getD "Records" (.pylist .nil) with
      | .pylist records => do
          let (fs, st') ← runRecords ctx now records.toList st
          let failures := fs.foldr
            (fun fid acc => PyList.cons
              (.pydict (.cons "itemIdentifier" fid .nil)) acc) .nil
          pure (.pydict (.cons "batchItemFailures" (.pylist failures) .nil), st')
      | _ => .error "TypeError: Records is not a list"
  | _ => .error "AttributeError: event has no .get"

end Handler

deriving instance DecidableEq for Except


/-! ## `src/tools/send_test_events.py` -/

namespace Sender

/-- One SQS batch entry (`{"Id": ..., "MessageBody": ...}`). -/
structure Entry where
  id : String
  messageBody : String
deriving DecidableEq, Repr

/-- Result of one `sqs.send_message_batch` call, as the code observes it:
either a response whose `Failed` list carries the identifiers of the
per-entry failures, or a raised `ClientError` with an error code. -/
inductive TResult where
  | resp (failedIds : List String)
  | clientError (code : String)
deriving DecidableEq, Repr

/-- The external queue transport: the outcome of the `n`-th transport call
(0-based, counted across the whole `send_batch` run) on a given entry
list. -/
def Transport := Nat → List Entry → TResult

/-- The codes treated as an oversize rejection (send_test_events.py:44). -/
def oversizeCodes : List String := ["413", "RequestEntityTooLarge"]

/-- Trace of transport calls actually made, in order. -/
abbrev CallTrace := List (List Entry × TResult)

/-- `_send_with_split_on_413` (send_test_events.py:38-50): try to send; on
an oversize `ClientError` with more than one entry, bisect at the midpoint
and send each half recursively — the first half's *response is discarded*
(only exceptions propagate), the second half's response is returned.  On a
single entry, or any other `ClientError`, re-raise.  Returns the `Failed`
ids of the returned response, the next call counter, and the call trace. -/
def send_with_split_on_413 (tr : Transport) :
    List Entry → Nat → Except String (List String) × Nat × CallTrace
  | sub, n =>
    match tr n sub with
    | .resp failed => (.ok failed, n + 1, [(sub, .resp failed)])
    | .clientError code =>
        if hc : code ∈ oversizeCodes then
          if hlen : sub.length ≤ 1 then
            (.error ("ClientError: " ++ code), n + 1, [(sub, .clientError code)])
          else
            let mid := sub.length / 2
            let (r1, n1, t1) := send_with_split_on_413 tr (sub.take mid) (n + 1)
            match r1 with
            | .error e => (.error e, n1, (sub, .clientError code) :: t1)
            | .ok _ =>
                let (r2, n2, t2) := send_with_split_on_413 tr (sub.drop mid) n1
                (r2, n2, (sub, .clientError code) :: (t1 ++ t2))
        else (.error ("ClientError: " ++ code), n + 1, [(sub, .clientError code)])
termination_by sub => sub.length
decreasing_by
  · simp only [List.length_take]
    omega
  · simp only [List.length_drop]
    omega

/-- `id_to_entry = {e["Id"]: e for e in entries}` then `id_to_entry[i]`:
dict comprehension keeps the *last* entry for a repeated id. -/
def lookupId (entries : List Entry) (i : String) : Option Entry :=
  (entries.reverse).find? (fun e => e.id = i)

/-- What one iteration of the retry loop of `send_batch` did. -/
structure AttemptRec where
  /-- the `entries` list at the start of the iteration -/
  sent : List Entry
  /-- transport calls (with split) made by `_send_with_split_on_413` -/
  calls : CallTrace
  /-- the `Failed` ids of the response the loop inspected -/
  reported : List String
  /-- backoff sleep performed at the end of the iteration, if any -/
  slept : Option DecNum
deriving DecidableEq, Repr

/-- `send_batch` (send_test_events.py:52-66), with `retry` and `backoff` as
in the source (defaults 3 and 0.5).  `fuel` counts the remaining loop
iterations of `for attempt in range(retry)` and `attempt` the current index;
`last` holds the previous iteration's `failed` list (the Python local that
the final `raise` reads — reading it before any iteration is the model's
`NameError`).  Returns the outcome and the per-iteration trace. -/
def send_batch_loop (tr : Transport) (backoff : DecNum) :
    Nat → Nat → List Entry → Option (List String) → Nat →
    Except String Unit × List AttemptRec
  | 0, _, _, last, _ =>
      match last with
      | none => (.error "NameError: failed", [])
      | some ids => (.error ("RuntimeError: Failed to send entries after retries: "
          ++ String.intercalate "," ids), [])
  | fuel + 1, attempt, entries, _, n =>
      let (r, n', calls) := send_with_split_on_413 tr entries n
      match r with
      | .error e => (.error e, [⟨entries, calls, [], none⟩])
      | .ok failed =>
          if failed.isEmpty then
            (.ok (), [⟨entries, calls, failed, none⟩])
          else
            let entries' := failed.filterMap (fun i => lookupId entries i)
            let slp := backoff.mul ⟨(2 : Int) ^ attempt, 0⟩
            let (res, rest) :=
              send_batch_loop tr backoff fuel (attempt + 1) entries' (some failed) n'
            (res, ⟨entries, calls, failed, some slp⟩ :: rest)

/-- `send_batch(sqs, queue_url, entries, retry=3, backoff=0.5)`. -/
def send_batch (tr : Transport) (entries : List Entry)
    (retry : Nat := 3) (backoff : DecNum := ⟨5, 1⟩) : Except String Unit × List AttemptRec :=
  send_batch_loop tr backoff retry 0 entries none 0

/-- Entries delivered to the queue during a run: every entry of a call that
returned a response, minus that response's `Failed` ids (at-least-once:
an entry may be delivered by several calls). -/
def delivered (calls : CallTrace) : List Entry :=
  calls.flatMap (fun c =>
    match c.2 with
    | .resp failed => c.1.filter (fun e => ¬ failed.contains e.id)
    | .clientError _ => [])

/-- All transport calls a `send_batch` run made. -/
def runCalls (attempts : List AttemptRec) : CallTrace :=
  attempts.flatMap (·.calls)

end Sender

/-! ## Helper lemmas -/

namespace Handler

theorem to_decimal_pydict (d : PyDict) :
    to_decimal (.pydict d) = (to_decimal_dict d).map .pydict := by
  cases h : to_decimal_dict d <;>
    simp [to_decimal, h, Except.map, Bind.bind, Except.bind, pure, Except.pure]

/-- `_to_decimal` on a dict acts pointwise: absent keys stay absent, present
keys are converted in place. -/
theorem to_decimal_dict_get? : (d d' : PyDict) → to_decimal_dict d = .ok d' →
    (k : String) →
    (d.get? k = none → d'.get? k = none) ∧
    (∀ v, d.get? k = some v → ∃ v', to_decimal v = .ok v' ∧ d'.get? k = some v')
  | .nil, d', h, k => by
      simp only [to_decimal_dict, pure, Except.pure, Except.ok.injEq] at h
      subst h
      simp [PyDict.get?]
  | .cons key v tl, d', h, k => by
      simp only [to_decimal_dict, Bind.bind, Except.bind] at h
      cases hv : to_decimal v with
      | error e => rw [hv] at h; exact absurd h (by simp)
      | ok v' =>
        rw [hv] at h
        cases htl : to_decimal_dict tl with
        | error e => rw [htl] at h; exact absurd h (by simp)
        | ok tl' =>
          rw [htl] at h
          simp only [pure, Except.pure, Except.ok.injEq] at h
          subst h
          by_cases hk : key = k
          · subst hk
            refine ⟨by simp [PyDict.get?], ?_⟩
            intro w hw
            simp only [PyDict.get?, if_pos] at hw
            cases hw
            exact ⟨v', hv, by simp [PyDict.get?]⟩
          · have ih := to_decimal_dict_get? tl tl' htl k
            constructor
            · intro hnone
              simp only [PyDict.get?, if_neg hk] at hnone ⊢
              exact ih.1 hnone
            · intro w hw
              simp only [PyDict.get?, if_neg hk] at hw ⊢
              exact ih.2 w hw

/-- In `item_full = {**payload, "ts": ..., "status": "OK"}` the `ts`
binding carries the current time. -/
theorem build_item_get?_ts (p : PyDict) (now : Int) :
    (build_item p now).get? "ts" = some (.pyint now) := by
  unfold build_item
  rw [PyDict.get?_set_ne _ _ _ _ (by decide), PyDict.get?_set_self]

theorem build_item_get?_status (p : PyDict) (now : Int) :
    (build_item p now).get? "status" = some (.pystr "OK") := by
  unfold build_item
  rw [PyDict.get?_set_self]

theorem build_item_get?_other (p : PyDict) (now : Int) (k : String)
    (hts : k ≠ "ts") (hst : k ≠ "status") :
    (build_item p now).get? k = p.get? k := by
  unfold build_item
  rw [PyDict.get?_set_ne _ _ _ _ (Ne.symm hst), PyDict.get?_set_ne _ _ _ _ (Ne.symm hts)]

end Handler

/-! ## Claims -/

open Handler Sender

/-- C5: the spec says decoding parses numeric literals directly into exact
decimals (true: `json_loads` maps `19.99` to the exact decimal `1999/10^2`)
and that `_to_decimal` leaves booleans unchanged.  The code does not:
`isinstance(obj, int)` holds for Python bools, so a boolean leaf is passed
to `decimal.Decimal(str(...))`, which raises `InvalidOperation` —
contradicting the function's own docstring ("leaving strings/bytes/None/
booleans unchanged").  This theorem evaluates the code at the failing
input: an amount literal is decoded and converted exactly, strings and
`None` are left unchanged, but a payload with a boolean leaf makes
`_to_decimal` (and hence `persist`) raise. -/
theorem claim_C5 :
    json_loads ("\x7b\"order_id\":\"o1\",\"amount\":19.99,\"flag\":true\x7d") =
      .ok (.pydict (.cons ("order_id") (.pystr ("o1"))
        (.cons ("amount") (.pydec ⟨1999, 2⟩)
        (.cons ("flag") (.pybool true) .nil)))) ∧
    to_decimal (.pydec ⟨1999, 2⟩) = .ok (.pydec ⟨1999, 2⟩) ∧
    to_decimal (.pystr ("x")) = .ok (.pystr ("x")) ∧
    to_decimal .pynone = .ok .pynone ∧
    to_decimal (.pydict (.cons ("flag") (.pybool true) .nil)) =
      .error ("InvalidOperation") := by
  refine ⟨by decide, by decide, by decide, by decide, by decide⟩

/-- C10: the record built by `persist` is exactly the payload plus the two
server-assigned fields: after `item_full = {**payload, "ts": ..., "status":
"OK"}` and `_to_decimal`, the item maps `ts` to the (decimal-converted)
current epoch seconds, `status` to `"OK"`, and every other key to the
decimal conversion of the payload's value for it — present exactly when the
payload has it.  (A payload field literally named `ts` or `status` is
overwritten by the server-assigned value, as the `{**payload, ...}` update
semantics dictate.) -/
theorem claim_C10 (p : PyDict) (now : Int) (item : PyDict)
    (h : to_decimal (.pydict (build_item p now)) = .ok (.pydict item)) :
    item.get? "ts" = some (.pydec (DecNum.ofInt now)) ∧
    item.get? "status" = some (.pystr "OK") ∧
    ∀ k, k ≠ "ts" → k ≠ "status" →
      (p.get? k = none → item.get? k = none) ∧
      (∀ v, p.get? k = some v →
        ∃ v', to_decimal v = .ok v' ∧ item.get? k = some v') := by
  rw [to_decimal_pydict] at h
  cases hd : to_decimal_dict (build_item p now) with
  | error e => rw [hd] at h; exact absurd h (by simp [Except.map])
  | ok d' =>
    rw [hd] at h
    simp only [Except.map, Except.ok.injEq, PyVal.pydict.injEq] at h
    subst h
    refine ⟨?_, ?_, ?_⟩
    · have := (to_decimal_dict_get? _ _ hd "ts").2 _ (build_item_get?_ts p now)
      obtain ⟨v', hv', hget⟩ := this
      simp only [to_decimal, pure, Except.pure, Except.ok.injEq] at hv'
      rw [hget, ← hv']
    · have := (to_decimal_dict_get? _ _ hd "status").2 _ (build_item_get?_status p now)
      obtain ⟨v', hv', hget⟩ := this
      simp only [to_decimal, pure, Except.pure, Except.ok.injEq] at hv'
      rw [hget, ← hv']
    · intro k hts hst
      have hb := build_item_get?_other p now k hts hst
      constructor
      · intro hnone
        exact (to_decimal_dict_get? _ _ hd k).1 (hb.trans hnone)
      · intro v hv
        exact (to_decimal_dict_get? _ _ hd k).2 v (hb.trans hv)

/-- Concrete payload with an extra `padding` field, for the C10 witness. -/
def pC10 : PyDict :=
  .cons ("order_id") (.pystr ("o1"))
    (.cons ("amount") (.pydec ⟨1999, 2⟩)
      (.cons ("padding") (.pystr ("xxxx")) .nil))

/-- The stored item `persist` builds from `pC10` at time 77. -/
def itemC10 : PyDict :=
  .cons ("order_id") (.pystr ("o1"))
    (.cons ("amount") (.pydec ⟨1999, 2⟩)
      (.cons ("padding") (.pystr ("xxxx"))
        (.cons ("ts") (.pydec ⟨77, 0⟩)
          (.cons ("status") (.pystr ("OK")) .nil))))

/-- Witness for C10 at a concrete payload carrying an extra `padding`
field: the stored item keeps `order_id`, `amount` (as exact decimal) and
`padding`, adds `ts` and `status`. -/
theorem claim_C10_witness :
    to_decimal (.pydict (build_item pC10 77)) = .ok (.pydict itemC10) ∧
    itemC10.get? "ts" = some (.pydec (DecNum.ofInt 77)) ∧
    itemC10.get? "padding" = some (.pystr ("xxxx")) := by
  refine ⟨by decide, (claim_C10 pC10 77 itemC10 (by decide)).1, ?_⟩
  have h := (claim_C10 pC10 77 itemC10 (by decide)).2.2 "padding"
    (by decide) (by decide)
  obtain ⟨v', hv', hget⟩ := h.2 (.pystr ("xxxx")) (by decide)
  simp only [to_decimal, pure, Except.pure, Except.ok.injEq] at hv'
  rw [hget, ← hv']

theorem PyDict.mem_iff : (d : PyDict) → (k : String) →
    (d.mem k = true ↔ ∃ v, d.get? k = some v)
  | .nil, k => by simp [PyDict.mem, PyDict.get?]
  | .cons key v tl, k => by
      by_cases h : key = k
      · simp [PyDict.mem, PyDict.get?, h]
      · simp [PyDict.mem, PyDict.get?, h, PyDict.mem_iff tl k]

/-- C9: `validate` raises exactly on a missing required field (checked in
the order `order_id`, `user_id`, `amount`, `items`, short-circuiting at the
first missing one), then on `items` not being a non-empty list, then on
`amount` not parsing as a number or parsing negative; when all three checks
pass it never raises — whatever the secondary line-total computation does —
and returns with the warning emitted exactly when the computed total is
positive and differs from the declared amount by more than `0.01`. -/
theorem claim_C9 (p : PyDict) :
    (¬ p.mem "order_id" → validate p = .error ("Missing field: order_id")) ∧
    (p.mem "order_id" → ¬ p.mem "user_id" →
      validate p = .error ("Missing field: user_id")) ∧
    (p.mem "order_id" → p.mem "user_id" → ¬ p.mem "amount" →
      validate p = .error ("Missing field: amount")) ∧
    (p.mem "order_id" → p.mem "user_id" → p.mem "amount" → ¬ p.mem "items" →
      validate p = .error ("Missing field: items")) ∧
    (p.mem "order_id" → p.mem "user_id" → p.mem "amount" → p.mem "items" →
      ∀ itv, p.get? "items" = some itv →
      (¬ items_ok itv → validate p = .error ("items must be a non-empty list")) ∧
      (items_ok itv →
        ∀ av, p.get? "amount" = some av →
        (pyFloat av = none → validate p = .error ("float() conversion failed")) ∧
        (∀ amt, pyFloat av = some amt →
          (amt.lt (DecNum.ofInt 0) →
            validate p = .error ("amount must be non-negative")) ∧
          (¬ amt.lt (DecNum.ofInt 0) →
            ∃ w, validate p = .ok w ∧
              (w = true ↔ ∃ xs computed, itv = .pylist xs ∧
                sum_items xs = .ok computed ∧ warn_cond computed amt = true))))) := by
  refine ⟨?_, ?_, ?_, ?_, ?_⟩
  · intro h
    simp only [validate, List.find?, Bool.not_eq_true] at *
    simp [h]
  · intro h1 h2
    simp only [validate, List.find?, Bool.not_eq_true] at *
    simp [h1, h2]
  · intro h1 h2 h3
    simp only [validate, List.find?, Bool.not_eq_true] at *
    simp [h1, h2, h3]
  · intro h1 h2 h3 h4
    simp only [validate, List.find?, Bool.not_eq_true] at *
    simp [h1, h2, h3, h4]
  · intro h1 h2 h3 h4 itv hitv
    have hfind : (["order_id", "user_id", "amount", "items"].find?
        (fun k => !p.mem k)) = none := by
      simp [List.find?, h1, h2, h3, h4]
    constructor
    · intro hbad
      simp only [validate, hfind, PyDict.getD, hitv, Option.getD_some]
      simp only [Bool.not_eq_true] at hbad
      simp [hbad]
    · intro hok av hav
      constructor
      · intro hnone
        simp [validate, hfind, PyDict.getD, hitv, hok, hav, floatE, hnone,
          Bind.bind, Except.bind]
      · intro amt hamt
        constructor
        · intro hneg
          simp [validate, hfind, PyDict.getD, hitv, hok, hav, floatE, hamt,
            Bind.bind, Except.bind, pure, Except.pure, hneg]
        · intro hpos
          simp only [Bool.not_eq_true] at hpos
          cases hitvcase : itv with
          | pylist xs =>
              subst hitvcase
              cases hsum : sum_items xs with
              | ok computed =>
                  refine ⟨warn_cond computed amt, ?_, ?_⟩
                  · simp [validate, hfind, PyDict.getD, hitv, hok, hav, floatE,
                      hamt, Bind.bind, Except.bind, hpos, hsum, pure,
                      Except.pure]
                  · constructor
                    · intro hw
                      exact ⟨xs, computed, rfl, hsum, hw⟩
                    · rintro ⟨xs', computed', hxs, hsum', hw⟩
                      cases hxs
                      rw [hsum] at hsum'
                      cases hsum'
                      exact hw
              | error e =>
                  refine ⟨false, ?_, ?_⟩
                  · simp [validate, hfind, PyDict.getD, hitv, hok, hav, floatE,
                      hamt, Bind.bind, Except.bind, hpos, hsum, pure,
                      Except.pure]
                  · simp only [Bool.false_eq_true, false_iff]
                    rintro ⟨xs', computed', hxs, hsum', hw⟩
                    cases hxs
                    rw [hsum] at hsum'
                    exact absurd hsum' (by simp)
          | pynone => rw [hitvcase] at hok; exact absurd hok (by simp [items_ok])
          | pybool b => rw [hitvcase] at hok; exact absurd hok (by simp [items_ok])
          | pyint n => rw [hitvcase] at hok; exact absurd hok (by simp [items_ok])
          | pydec d => rw [hitvcase] at hok; exact absurd hok (by simp [items_ok])
          | pystr s => rw [hitvcase] at hok; exact absurd hok (by simp [items_ok])
          | pydict d => rw [hitvcase] at hok; exact absurd hok (by simp [items_ok])

/-- The `items` value of the C9 witness payload: one line item `qty 2,
unitPrice 9`, so the computed total 18 mismatches the declared amount 10. -/
def itvC9 : PyVal :=
  .pylist (.cons (.pydict (.cons ("qty") (.pyint 2)
    (.cons ("unitPrice") (.pyint 9) .nil))) .nil)

/-- Concrete valid payload for the C9 witness. -/
def pC9 : PyDict :=
  .cons ("order_id") (.pystr ("o1"))
    (.cons ("user_id") (.pystr ("u1"))
      (.cons ("amount") (.pyint 10)
        (.cons ("items") itvC9 .nil)))

/-- Witness for C9: on a payload passing all three checks, `validate`
returns without raising, with the warning flag set (computed total 18 vs
declared amount 10). -/
theorem claim_C9_witness :
    pC9.mem "order_id" = true ∧ pC9.mem "user_id" = true ∧
    pC9.mem "amount" = true ∧ pC9.mem "items" = true ∧
    pC9.get? "items" = some itvC9 ∧ items_ok itvC9 = true ∧
    pC9.get? "amount" = some (.pyint 10) ∧
    pyFloat (.pyint 10) = some (DecNum.ofInt 10) ∧
    (DecNum.ofInt 10).lt (DecNum.ofInt 0) = false ∧
    (∃ w, validate pC9 = .ok w ∧
      (w = true ↔ ∃ xs computed, itvC9 = .pylist xs ∧
        sum_items xs = .ok computed ∧
        warn_cond computed (DecNum.ofInt 10) = true)) := by
  refine ⟨by decide, by decide, by decide, by decide, by decide, by decide,
    by decide, by decide, by decide, ?_⟩
  exact ((((claim_C9 pC9).2.2.2.2 (by decide) (by decide) (by decide)
    (by decide) itvC9 (by decide)).2 (by decide) (.pyint 10)
    (by decide)).2 (DecNum.ofInt 10) (by decide)).2 (by decide)

theorem DecNum.le_eq_false_of_lt (a b : DecNum) (h : a.lt b = true) :
    b.le a = false := by
  simp only [DecNum.lt, decide_eq_true_eq] at h
  simp only [DecNum.le, decide_eq_false_iff_not, not_le]
  omega

/-- C6 (amended): provided the configured threshold exceeds the `-1.0`
sentinel and the publish call succeeds, `maybe_alert` returns without
raising and publishes exactly one alert iff the payload's amount parses and
is at least the threshold; in every other case (amount missing, amount not
parseable — which yields the sentinel — or amount below threshold) it
leaves the state unchanged. -/
theorem claim_C6 (ctx : Ctx) (now : Int) (p : PyDict) (st : St)
    (hs : ∀ m, ctx.sns_fault st m = false)
    (hthr : (DecNum.mk (-1) 0).lt ctx.alertAmount = true) :
    ∃ st', maybe_alert ctx now p st = .ok st' ∧
      (st'.alerts.length = st.alerts.length + 1 ∨ st' = st) ∧
      (st'.alerts.length = st.alerts.length + 1 ↔
        ∃ v d, p.get? "amount" = some v ∧ pyFloat v = some d ∧
          ctx.alertAmount.le d = true) := by
  have hsent : ctx.alertAmount.le ⟨-1, 0⟩ = false :=
    DecNum.le_eq_false_of_lt _ _ hthr
  unfold maybe_alert
  cases hv : p.get? "amount" with
  | none =>
      simp only [hv, hsent, Bool.false_eq_true, if_false]
      refine ⟨st, rfl, Or.inr rfl, iff_of_false (by omega) ?_⟩
      simp [hv]
  | some v =>
      cases hd : pyFloat v with
      | none =>
          simp only [hv, hd, hsent, Bool.false_eq_true, if_false]
          refine ⟨st, rfl, Or.inr rfl, iff_of_false (by omega) ?_⟩
          simp [hv, hd]
      | some d =>
          simp only [hv, hd]
          cases hle : ctx.alertAmount.le d with
          | false =>
              simp only [Bool.false_eq_true, if_false]
              refine ⟨st, rfl, Or.inr rfl, iff_of_false (by omega) ?_⟩
              simp [hv, hd, hle]
          | true =>
              simp only [if_true, hs, Bool.false_eq_true, if_false]
              refine ⟨_, rfl, ?_, ?_⟩
              · left
                simp
              · simp only [List.length_append, List.length_cons,
                  List.length_nil, true_iff]
                exact ⟨v, d, rfl, hd, hle⟩

/-- A context with the default threshold 1500 and no external faults, for
the C6 witness. -/
def ctxC6 : Ctx := ⟨⟨1500, 0⟩, false, fun _ _ => false, fun _ _ => false⟩

/-- Payload with amount exactly at the threshold. -/
def pC6 : PyDict :=
  .cons ("order_id") (.pystr ("o1")) (.cons ("amount") (.pydec ⟨1500, 0⟩) .nil)

/-- Witness for C6: threshold 1500, no faults, amount exactly 1500 — the
amended theorem applies and an alert is published. -/
theorem claim_C6_witness :
    (∀ m, ctxC6.sns_fault ⟨[], []⟩ m = false) ∧
    (DecNum.mk (-1) 0).lt ctxC6.alertAmount = true ∧
    (∃ st', maybe_alert ctxC6 9 pC6 ⟨[], []⟩ = .ok st' ∧
      (st'.alerts.length = ([] : List PyVal).length + 1 ∨ st' = ⟨[], []⟩) ∧
      (st'.alerts.length = ([] : List PyVal).length + 1 ↔
        ∃ v d, pC6.get? "amount" = some v ∧ pyFloat v = some d ∧
          ctxC6.alertAmount.le d = true)) :=
  ⟨fun _ => rfl, by decide, claim_C6 ctxC6 9 pC6 ⟨[], []⟩ (fun _ => rfl) (by decide)⟩

/-- A context whose configured threshold is below the `-1.0` sentinel, for
the C6 counterexample. -/
def ctxC6neg : Ctx := ⟨⟨-2, 0⟩, false, fun _ _ => false, fun _ _ => false⟩

/-- The alert message `maybe_alert` publishes in the counterexample run. -/
def msgC6 : PyVal :=
  .pydict (.cons ("event") (.pystr ("LARGE_ORDER"))
    (.cons ("order_id") .pynone
      (.cons ("user_id") .pynone
        (.cons ("amount") (.pydec ⟨-1, 0⟩)
          (.cons ("currency") (.pystr ("USD"))
            (.cons ("ts") (.pyint 0) .nil))))))

/-- Counterexample to C6 as stated: with a configured threshold of `-2.0`
(the code reads `ALERT_AMOUNT` from the environment, any float is
configurable), a payload with no parseable amount at all *does* publish an
alert, because the parse-failure sentinel `-1.0` is ≥ the threshold — the
claim's "no alert is published" on parse failure fails. -/
theorem claim_C6_counterexample :
    ((.nil : PyDict).get? "amount" = none) ∧
    maybe_alert ctxC6neg 0 .nil ⟨[], []⟩ = .ok ⟨[], [msgC6]⟩ := by decide

namespace Handler

/-- Number of records stored under a key. -/
def countKey (t : List (PyVal × PyVal)) (key : PyVal) : Nat :=
  (t.filter (fun kv => kv.1 = key)).length

theorem countKey_append_self (t : List (PyVal × PyVal)) (key : PyVal) (x : PyVal) :
    countKey (t ++ [(key, x)]) key = countKey t key + 1 := by
  simp [countKey, List.filter_append]

theorem countKey_eq_zero (t : List (PyVal × PyVal)) (key : PyVal)
    (h : tableHas t key = false) : countKey t key = 0 := by
  simp only [tableHas, List.any_eq_false, decide_eq_true_eq] at h
  simp only [countKey, List.length_eq_zero, List.filter_eq_nil_iff,
    decide_eq_true_eq]
  exact h

theorem tableHas_append_self (t : List (PyVal × PyVal)) (key : PyVal) (x : PyVal) :
    tableHas (t ++ [(key, x)]) key = true := by
  simp [tableHas]

/-- With a fault-free notification channel, `maybe_alert` returns a state
with the same table (it only ever appends an alert). -/
theorem maybe_alert_ok_table (ctx : Ctx) (now : Int) (p : PyDict) (st : St)
    (hs : ∀ m, ctx.sns_fault st m = false) :
    ∃ st', maybe_alert ctx now p st = .ok st' ∧ st'.table = st.table := by
  unfold maybe_alert
  cases hle : ctx.alertAmount.le
      (match p.get? "amount" with
       | none => ⟨-1, 0⟩
       | some v => match pyFloat v with
                   | some d => d
                   | none => ⟨-1, 0⟩) with
  | false =>
      simp only [hle, Bool.false_eq_true, if_false]
      exact ⟨st, rfl, rfl⟩
  | true =>
      simp only [hle, if_true, hs, Bool.false_eq_true, if_false]
      exact ⟨_, rfl, rfl⟩

end Handler

/-- C2: for a payload whose order identifier already has a stored record,
`persist` returns success and leaves the store unchanged (the
`ConditionalCheckFailedException` is absorbed); and running the handler
over the same message twice (same decoded payload, fault-free store and
channel) reports zero failures on both attempts and leaves exactly one
stored record under the order identifier. -/
theorem claim_C2 (ctx : Ctx) (now : Int) (record : PyDict) (mid : PyVal)
    (body : String) (p : PyDict) (wv : Bool) (item : PyDict) (key : PyVal)
    (hput : ∀ s i, ctx.put_fault s i = false)
    (hsns : ∀ s m, ctx.sns_fault s m = false)
    (hmsg : record.get? "messageId" = some mid)
    (hbody : record.getD "body" (.pystr "") = .pystr body)
    (hdec : json_loads body = .ok (.pydict p))
    (hval : validate p = .ok wv)
    (hconv : to_decimal (.pydict (build_item p now)) = .ok (.pydict item))
    (hkey : item.get? "order_id" = some key) :
    (∀ st : St, tableHas st.table key = true → persist ctx now p st = .ok st) ∧
    (∀ st : St, tableHas st.table key = false →
      ∃ stF, runRecords ctx now [.pydict record, .pydict record] st =
          .ok ([], stF) ∧
        stF.table = st.table ++ [(key, .pydict item)] ∧
        countKey stF.table key = 1) := by
  have hpersist1 : ∀ st : St, tableHas st.table key = true →
      persist ctx now p st = .ok st := by
    intro st hdup
    simp [persist, hconv, Bind.bind, Except.bind, hkey, hdup, pure, Except.pure]
  refine ⟨hpersist1, ?_⟩
  intro st hnew
  have hpersist : persist ctx now p st =
      .ok { st with table := st.table ++ [(key, .pydict item)] } := by
    simp [persist, hconv, Bind.bind, Except.bind, hkey, hnew, hput, pure,
      Except.pure]
  obtain ⟨st2, hma, htab⟩ := maybe_alert_ok_table ctx now p
    { st with table := st.table ++ [(key, .pydict item)] } (fun m => hsns _ m)
  have hp1 : processRecord ctx now record st = (.ok, st2) := by
    unfold processRecord
    rw [hbody]
    simp only [hdec]
    cases hskip : ctx.skipValidation
    · simp [hskip, hval, Bind.bind, Except.bind, hpersist, hma, pure, Except.pure]
    · simp [hskip, hpersist, hma, pure, Except.pure]
  have ht2 : st2.table = st.table ++ [(key, .pydict item)] := by simpa using htab
  have hpersist2 : persist ctx now p st2 = .ok st2 := by
    apply hpersist1
    rw [ht2]
    exact tableHas_append_self _ _ _
  obtain ⟨st3, hma3, ht3⟩ := maybe_alert_ok_table ctx now p st2 (fun m => hsns _ m)
  have hp2 : processRecord ctx now record st2 = (.ok, st3) := by
    unfold processRecord
    rw [hbody]
    simp only [hdec]
    cases hskip : ctx.skipValidation
    · simp [hskip, hval, Bind.bind, Except.bind, hpersist2, hma3, pure, Except.pure]
    · simp [hskip, hpersist2, hma3, pure, Except.pure]
  refine ⟨st3, ?_, ?_, ?_⟩
  · simp [runRecords, hmsg, hp1, hp2, pure, Except.pure, Bind.bind, Except.bind]
  · rw [ht3, ht2]
  · rw [ht3, ht2, countKey_append_self, countKey_eq_zero _ _ hnew]

/-- Fault-free context with the default threshold, for the C2 witness. -/
def ctxC2 : Ctx := ⟨⟨1500, 0⟩, false, fun _ _ => false, fun _ _ => false⟩

/-- Body of the C2 witness message. -/
def bodyC2 : String :=
  "\x7b\"order_id\":\"a\",\"user_id\":\"u\",\"amount\":19.99,\"items\":[1]\x7d"

/-- The C2 witness SQS record. -/
def recC2 : PyDict :=
  .cons ("messageId") (.pystr ("m1")) (.cons ("body") (.pystr bodyC2) .nil)

/-- The decoded C2 witness payload. -/
def pC2 : PyDict :=
  .cons ("order_id") (.pystr ("a"))
    (.cons ("user_id") (.pystr ("u"))
      (.cons ("amount") (.pydec ⟨1999, 2⟩)
        (.cons ("items") (.pylist (.cons (.pyint 1) .nil)) .nil)))

/-- The stored item for the C2 witness (persisted at time 7). -/
def itemC2 : PyDict :=
  .cons ("order_id") (.pystr ("a"))
    (.cons ("user_id") (.pystr ("u"))
      (.cons ("amount") (.pydec ⟨1999, 2⟩)
        (.cons ("items") (.pylist (.cons (.pydec ⟨1, 0⟩) .nil))
          (.cons ("ts") (.pydec ⟨7, 0⟩)
            (.cons ("status") (.pystr ("OK")) .nil)))))

/-- Witness for C2: delivering the same order twice, starting from an empty
store, reports zero failures and stores exactly one record, whose amount is
exactly the decimal `19.99`. -/
theorem claim_C2_witness :
    json_loads bodyC2 = .ok (.pydict pC2) ∧
    itemC2.get? "amount" = some (.pydec ⟨1999, 2⟩) ∧
    (∃ stF, runRecords ctxC2 7 [.pydict recC2, .pydict recC2] ⟨[], []⟩ =
        .ok ([], stF) ∧
      stF.table = ([] : List (PyVal × PyVal)) ++ [(.pystr ("a"), .pydict itemC2)] ∧
      countKey stF.table (.pystr ("a")) = 1) := by
  refine ⟨by decide, by decide, ?_⟩
  exact (claim_C2 ctxC2 7 recC2 (.pystr ("m1")) bodyC2 pC2 false itemC2
    (.pystr ("a")) (fun _ _ => rfl) (fun _ _ => rfl) (by decide) (by decide)
    (by decide) (by decide) (by decide) (by decide)).2 ⟨[], []⟩ (by decide)

namespace Handler

/-- State effect of one record of the batch (non-dict records never get
this far; they make the handler raise). -/
def stepSt (ctx : Ctx) (now : Int) (st : St) (r : PyVal) : St :=
  match r with
  | .pydict d => (processRecord ctx now d st).2
  | _ => st

/-- The external state at the start of each record's processing. -/
def statesAlong (ctx : Ctx) (now : Int) : List PyVal → St → List St
  | [], _ => []
  | r :: rs, st => st :: statesAlong ctx now rs (stepSt ctx now st r)

/-- Whether a record's processing fails with a non-duplicate error when run
in the given state. -/
def failsAt (ctx : Ctx) (now : Int) (r : PyVal) (st : St) : Bool :=
  match r with
  | .pydict d =>
      match (processRecord ctx now d st).1 with
      | .fail _ => true
      | _ => false
  | _ => true

/-- The record's `messageId`, when it has one. -/
def msgIdOf : PyVal → Option PyVal
  | .pydict d => d.get? "messageId"
  | _ => none

/-- Characterization of the batch loop: over records that all carry a
`messageId`, it returns exactly the identifiers of the records whose
processing fails — in batch order, evaluated each in the state left by its
predecessors — and the final state is the fold of the per-record state
effects. -/
theorem runRecords_spec (ctx : Ctx) (now : Int) :
    ∀ (records : List PyVal) (st : St),
    (∀ r ∈ records, (msgIdOf r).isSome) →
    runRecords ctx now records st = .ok
      ((records.zip (statesAlong ctx now records st)).filterMap
          (fun q => if failsAt ctx now q.1 q.2 then msgIdOf q.1 else none),
        records.foldl (stepSt ctx now) st)
  | [], st, _ => by simp [runRecords, statesAlong, pure, Except.pure]
  | r :: rs, st, hwf => by
      cases r with
      | pydict d =>
          cases hmid : d.get? "messageId" with
          | none =>
              have := hwf _ (List.mem_cons_self _ rs)
              simp [msgIdOf, hmid] at this
          | some mid =>
              have ih := runRecords_spec ctx now rs
                (stepSt ctx now st (.pydict d))
                (fun r hr => hwf r (List.mem_cons_of_mem _ hr))
              cases hout : processRecord ctx now d st with
              | mk o st' =>
                  have hstep : stepSt ctx now st (.pydict d) = st' := by
                    simp [stepSt, hout]
                  rw [hstep] at ih
                  cases o with
                  | ok =>
                      simp [runRecords, hmid, hout, ih, statesAlong, stepSt,
                        failsAt, pure, Except.pure, Bind.bind, Except.bind]
                  | dupTop =>
                      simp [runRecords, hmid, hout, ih, statesAlong, stepSt,
                        failsAt, pure, Except.pure, Bind.bind, Except.bind]
                  | fail e =>
                      simp [runRecords, hmid, hout, ih, statesAlong, stepSt,
                        failsAt, msgIdOf, pure, Except.pure, Bind.bind,
                        Except.bind]
      | pynone => have := hwf _ (List.mem_cons_self _ rs); simp [msgIdOf] at this
      | pybool b => have := hwf _ (List.mem_cons_self _ rs); simp [msgIdOf] at this
      | pyint n => have := hwf _ (List.mem_cons_self _ rs); simp [msgIdOf] at this
      | pydec q => have := hwf _ (List.mem_cons_self _ rs); simp [msgIdOf] at this
      | pystr s => have := hwf _ (List.mem_cons_self _ rs); simp [msgIdOf] at this
      | pylist xs => have := hwf _ (List.mem_cons_self _ rs); simp [msgIdOf] at this

/-- Batch processing decomposes over any split of the record list: whatever
happened in the first part (failures included), the rest is processed from
the threaded state and the failure lists concatenate. -/
theorem runRecords_append (ctx : Ctx) (now : Int) :
    ∀ (xs : List PyVal) (ys : List PyVal) (st : St),
    (∀ r ∈ xs, (msgIdOf r).isSome) →
    ∃ f1 st1, runRecords ctx now xs st = .ok (f1, st1) ∧
      runRecords ctx now (xs ++ ys) st =
        (runRecords ctx now ys st1).map (fun q => (f1 ++ q.1, q.2))
  | [], ys, st, _ => by
      refine ⟨[], st, by simp [runRecords, pure, Except.pure], ?_⟩
      cases h : runRecords ctx now ys st <;> simp [Except.map, h]
  | r :: rs, ys, st, hwf => by
      cases r with
      | pydict d =>
          cases hmid : d.get? "messageId" with
          | none =>
              have := hwf _ (List.mem_cons_self _ rs)
              simp [msgIdOf, hmid] at this
          | some mid =>
              cases hout : processRecord ctx now d st with
              | mk o st' =>
                  obtain ⟨f1, st1, h1, h2⟩ := runRecords_append ctx now rs ys st'
                    (fun r hr => hwf r (List.mem_cons_of_mem _ hr))
                  cases o with
                  | ok =>
                      exact ⟨f1, st1, by simp [runRecords, hmid, hout, h1],
                        by simpa [runRecords, hmid, hout] using h2⟩
                  | dupTop =>
                      exact ⟨f1, st1, by simp [runRecords, hmid, hout, h1],
                        by simpa [runRecords, hmid, hout] using h2⟩
                  | fail e =>
                      refine ⟨mid :: f1, st1, by
                        simp [runRecords, hmid, hout, h1, pure, Except.pure,
                          Bind.bind, Except.bind], ?_⟩
                      rw [List.cons_append]
                      simp only [runRecords, hmid, hout, Bind.bind, Except.bind]
                      rw [h2]
                      cases h : runRecords ctx now ys st1 <;>
                        simp [Except.map, h, pure, Except.pure]
      | pynone => have := hwf _ (List.mem_cons_self _ rs); simp [msgIdOf] at this
      | pybool b => have := hwf _ (List.mem_cons_self _ rs); simp [msgIdOf] at this
      | pyint n => have := hwf _ (List.mem_cons_self _ rs); simp [msgIdOf] at this
      | pydec q => have := hwf _ (List.mem_cons_self _ rs); simp [msgIdOf] at this
      | pystr s => have := hwf _ (List.mem_cons_self _ rs); simp [msgIdOf] at this
      | pylist xs => have := hwf _ (List.mem_cons_self _ rs); simp [msgIdOf] at this

end Handler

theorem length_filterMap_countP {α β : Type} (f : α → Bool) (g : α → Option β) :
    ∀ l : List α, (∀ a ∈ l, f a = true → (g a).isSome) →
    (l.filterMap (fun a => if f a then g a else none)).length = l.countP f
  | [], _ => by simp
  | a :: l, h => by
      have ih := length_filterMap_countP f g l (fun b hb => h b (List.mem_cons_of_mem _ hb))
      cases hfa : f a with
      | false => simp [List.filterMap_cons, hfa, List.countP_cons, ih]
      | true =>
          have := h a (List.mem_cons_self _ _) hfa
          cases hga : g a with
          | none => rw [hga] at this; simp at this
          | some b => simp [List.filterMap_cons, hfa, hga, List.countP_cons, ih]

/-- C1: over an event whose records each carry a `messageId` (as SQS batch
events do), `lambda_handler` returns — without raising — a
`batchItemFailures` list holding exactly the identifiers of the records
whose processing failed with a non-duplicate error, in batch order, one per
failed record (so exactly K entries when exactly K records fail), and the
final external state is the fold of the per-record processing effects (the
other N−K records are fully processed). -/
theorem claim_C1 (ctx : Ctx) (now : Int) (ed : PyDict) (records : PyList)
    (st : St)
    (hrec : ed.getD "Records" (.pylist .nil) = .pylist records)
    (hwf : ∀ r ∈ records.toList, (msgIdOf r).isSome) :
    ∃ fails : List PyVal,
      fails = (records.toList.zip (statesAlong ctx now records.toList st)).filterMap
          (fun q => if failsAt ctx now q.1 q.2 then msgIdOf q.1 else none) ∧
      fails.length = (records.toList.zip
          (statesAlong ctx now records.toList st)).countP
          (fun q => failsAt ctx now q.1 q.2) ∧
      lambda_handler ctx now (.pydict ed) st = .ok
        (.pydict (.cons "batchItemFailures"
            (.pylist (fails.foldr (fun fid acc =>
              PyList.cons (.pydict (.cons "itemIdentifier" fid .nil)) acc) .nil))
            .nil),
          records.toList.foldl (stepSt ctx now) st) := by
  refine ⟨_, rfl, ?_, ?_⟩
  · apply length_filterMap_countP
    intro q hq _
    exact hwf q.1 (List.of_mem_zip hq).1
  · have hrun := runRecords_spec ctx now records.toList st hwf
    simp [lambda_handler, hrec, hrun, Bind.bind, Except.bind, pure, Except.pure]

/-- Fault-free context with the default threshold, for the C1 witness. -/
def ctxC1 : Ctx := ⟨⟨1500, 0⟩, false, fun _ _ => false, fun _ _ => false⟩

/-- The C1 witness event: three messages, the second with `amount: -5`. -/
def eventC1 : PyDict :=
  .cons ("Records") (.pylist (
    .cons (.pydict (.cons ("messageId") (.pystr ("m1")) (.cons ("body") (.pystr
      ("\x7b\"order_id\":\"a\",\"user_id\":\"u\",\"amount\":1,\"items\":[1]\x7d")) .nil)))
    (.cons (.pydict (.cons ("messageId") (.pystr ("m2")) (.cons ("body") (.pystr
      ("\x7b\"order_id\":\"b\",\"user_id\":\"u\",\"amount\":-5,\"items\":[1]\x7d")) .nil)))
    (.cons (.pydict (.cons ("messageId") (.pystr ("m3")) (.cons ("body") (.pystr
      ("\x7b\"order_id\":\"c\",\"user_id\":\"u\",\"amount\":2,\"items\":[1]\x7d")) .nil)))
    .nil)))) .nil

/-- The records list of `eventC1`. -/
def reclistC1 : PyList :=
  .cons (.pydict (.cons ("messageId") (.pystr ("m1")) (.cons ("body") (.pystr
      ("\x7b\"order_id\":\"a\",\"user_id\":\"u\",\"amount\":1,\"items\":[1]\x7d")) .nil)))
    (.cons (.pydict (.cons ("messageId") (.pystr ("m2")) (.cons ("body") (.pystr
      ("\x7b\"order_id\":\"b\",\"user_id\":\"u\",\"amount\":-5,\"items\":[1]\x7d")) .nil)))
    (.cons (.pydict (.cons ("messageId") (.pystr ("m3")) (.cons ("body") (.pystr
      ("\x7b\"order_id\":\"c\",\"user_id\":\"u\",\"amount\":2,\"items\":[1]\x7d")) .nil)))
    .nil))

/-- Witness for C1: on the three-message batch with the middle message
invalid (negative amount), the returned `batchItemFailures` is exactly
`[{"itemIdentifier": "m2"}]` and the other two messages are persisted. -/
theorem claim_C1_witness :
    (eventC1.getD "Records" (.pylist .nil) = .pylist reclistC1) ∧
    (∀ r ∈ reclistC1.toList, (msgIdOf r).isSome) ∧
    ((lambda_handler ctxC1 7 (.pydict eventC1) ⟨[], []⟩).toOption.map
        Prod.fst = some (.pydict (.cons ("batchItemFailures")
          (.pylist (.cons (.pydict (.cons ("itemIdentifier") (.pystr ("m2")) .nil))
            .nil)) .nil))) ∧
    ((lambda_handler ctxC1 7 (.pydict eventC1) ⟨[], []⟩).toOption.map
        (fun q => (countKey q.2.table (.pystr ("a")),
          countKey q.2.table (.pystr ("b")),
          countKey q.2.table (.pystr ("c")))) = some (1, 0, 1)) ∧
    (∃ fails : List PyVal,
      fails = (reclistC1.toList.zip
          (statesAlong ctxC1 7 reclistC1.toList ⟨[], []⟩)).filterMap
          (fun q => if failsAt ctxC1 7 q.1 q.2 then msgIdOf q.1 else none) ∧
      fails.length = (reclistC1.toList.zip
          (statesAlong ctxC1 7 reclistC1.toList ⟨[], []⟩)).countP
          (fun q => failsAt ctxC1 7 q.1 q.2) ∧
      lambda_handler ctxC1 7 (.pydict eventC1) ⟨[], []⟩ = .ok
        (.pydict (.cons "batchItemFailures"
            (.pylist (fails.foldr (fun fid acc =>
              PyList.cons (.pydict (.cons "itemIdentifier" fid .nil)) acc) .nil))
            .nil),
          reclistC1.toList.foldl (stepSt ctxC1 7) ⟨[], []⟩)) :=
  ⟨by decide, by decide, by decide, by decide,
    claim_C1 ctxC1 7 eventC1 reclistC1 ⟨[], []⟩ (by decide) (by decide)⟩

/-- C3 (amended): over events of the queue's documented shape — a mapping
whose `Records` value is a list of mappings each carrying a `messageId` —
`lambda_handler` returns its report without raising, and a failure while
processing any prefix of the batch never aborts the rest: for every split
of the record list, the suffix is processed from the state the prefix left,
and the failure lists concatenate.  (On malformed events the handler *does*
raise — see the counterexample — because `record["messageId"]` is
evaluated outside the `try`.) -/
theorem claim_C3 (ctx : Ctx) (now : Int) (ed : PyDict) (records : PyList)
    (st : St)
    (hrec : ed.getD "Records" (.pylist .nil) = .pylist records)
    (hwf : ∀ r ∈ records.toList, (msgIdOf r).isSome) :
    (∃ out, lambda_handler ctx now (.pydict ed) st = .ok out) ∧
    (∀ xs ys, records.toList = xs ++ ys →
      ∃ f1 st1, runRecords ctx now xs st = .ok (f1, st1) ∧
        runRecords ctx now (xs ++ ys) st =
          (runRecords ctx now ys st1).map (fun q => (f1 ++ q.1, q.2))) := by
  constructor
  · have hrun := runRecords_spec ctx now records.toList st hwf
    simp only [lambda_handler, hrec, hrun, Bind.bind, Except.bind]
    exact ⟨_, rfl⟩
  · intro xs ys hsplit
    apply runRecords_append
    intro r hr
    exact hwf r (by rw [hsplit]; exact List.mem_append_left _ hr)

/-- Fault-free default context for the C3 theorems. -/
def ctxC3 : Ctx := ⟨⟨1500, 0⟩, false, fun _ _ => false, fun _ _ => false⟩

/-- Counterexample to C3 as stated: `lambda_handler` *can* raise to its
caller.  `record["messageId"]` (handler.py:114) runs outside the `try`
block, so an event whose single record lacks a `messageId` key raises
`KeyError` out of the handler instead of being recorded as a failure. -/
theorem claim_C3_counterexample :
    lambda_handler ctxC3 0 (.pydict (.cons ("Records")
      (.pylist (.cons (.pydict .nil) .nil)) .nil)) ⟨[], []⟩ =
    .error ("KeyError: messageId") := by decide

/-- The two-record event of the C3 witness: the first record's body is
invalid JSON (its processing fails), the second is a valid order. -/
def eventC3 : PyDict :=
  .cons ("Records") (.pylist (
    .cons (.pydict (.cons ("messageId") (.pystr ("m1"))
      (.cons ("body") (.pystr ("not json")) .nil)))
    (.cons (.pydict (.cons ("messageId") (.pystr ("m2")) (.cons ("body") (.pystr
      ("\x7b\"order_id\":\"c\",\"user_id\":\"u\",\"amount\":2,\"items\":[1]\x7d")) .nil)))
    .nil))) .nil

/-- The records list of `eventC3`. -/
def reclistC3 : PyList :=
  .cons (.pydict (.cons ("messageId") (.pystr ("m1"))
      (.cons ("body") (.pystr ("not json")) .nil)))
    (.cons (.pydict (.cons ("messageId") (.pystr ("m2")) (.cons ("body") (.pystr
      ("\x7b\"order_id\":\"c\",\"user_id\":\"u\",\"amount\":2,\"items\":[1]\x7d")) .nil)))
    .nil)

/-- Witness for C3 (amended): on a well-shaped two-record event whose first
record fails to decode, the handler still returns, and the batch
decomposes around the failing first record. -/
theorem claim_C3_witness :
    (eventC3.getD "Records" (.pylist .nil) = .pylist reclistC3) ∧
    (∀ r ∈ reclistC3.toList, (msgIdOf r).isSome) ∧
    ((∃ out, lambda_handler ctxC3 7 (.pydict eventC3) ⟨[], []⟩ = .ok out) ∧
    (∀ xs ys, reclistC3.toList = xs ++ ys →
      ∃ f1 st1, runRecords ctxC3 7 xs ⟨[], []⟩ = .ok (f1, st1) ∧
        runRecords ctxC3 7 (xs ++ ys) ⟨[], []⟩ =
          (runRecords ctxC3 7 ys st1).map (fun q => (f1 ++ q.1, q.2)))) :=
  ⟨by decide, by decide,
    claim_C3 ctxC3 7 eventC3 reclistC3 ⟨[], []⟩ (by decide) (by decide)⟩

namespace Sender

/-- C7: when the transport rejects a batch as oversized, a batch of more
than one entry is bisected at its midpoint and the two halves are sent
recursively (the first, then — if it did not raise — the second, whose
response is the one returned), while a single-entry batch re-raises the
size error with no further splitting. -/
theorem claim_C7 (tr : Transport) (entries : List Entry) (n : Nat)
    (code : String) (hb : tr n entries = .clientError code)
    (hc : code ∈ oversizeCodes) :
    (entries.length = 1 →
      send_with_split_on_413 tr entries n =
        (.error ("ClientError: " ++ code), n + 1,
          [(entries, .clientError code)])) ∧
    (1 < entries.length →
      send_with_split_on_413 tr entries n =
        (let mid := entries.length / 2
         let r1 := send_with_split_on_413 tr (entries.take mid) (n + 1)
         match r1.1 with
         | .error e => (.error e, r1.2.1, (entries, .clientError code) :: r1.2.2)
         | .ok _ =>
             let r2 := send_with_split_on_413 tr (entries.drop mid) r1.2.1
             (r2.1, r2.2.1,
               (entries, .clientError code) :: (r1.2.2 ++ r2.2.2)))) := by
  constructor
  · intro h1
    rw [send_with_split_on_413]
    simp [hb, hc, h1]
  · intro h1
    rw [send_with_split_on_413]
    simp [hb, hc]
    intro hle
    exact absurd hle (by omega)

/-- Eight entries for the C7 witness. -/
def entsC7 : List Entry :=
  [⟨"1", "p"⟩, ⟨"2", "p"⟩, ⟨"3", "p"⟩, ⟨"4", "p"⟩,
   ⟨"5", "p"⟩, ⟨"6", "p"⟩, ⟨"7", "p"⟩, ⟨"8", "p"⟩]

/-- First half of `entsC7`. -/
def ehalf1 : List Entry := [⟨"1", "p"⟩, ⟨"2", "p"⟩, ⟨"3", "p"⟩, ⟨"4", "p"⟩]

/-- Second half of `entsC7`. -/
def ehalf2 : List Entry := [⟨"5", "p"⟩, ⟨"6", "p"⟩, ⟨"7", "p"⟩, ⟨"8", "p"⟩]

/-- Transport for the C7 witness: any 8-entry batch is rejected as
oversized, smaller batches are accepted with no per-entry failures. -/
def trC7 : Transport := fun _ es =>
  if es.length = 8 then .clientError "413" else .resp []

/-- Witness for C7: the rejected 8-entry batch is bisected into two batches
of 4, each sent independently and accepted. -/
theorem claim_C7_witness :
    trC7 0 entsC7 = .clientError "413" ∧ "413" ∈ oversizeCodes ∧
    1 < entsC7.length ∧
    send_with_split_on_413 trC7 entsC7 0 =
      (.ok [], 3, [(entsC7, .clientError "413"),
        (ehalf1, .resp []), (ehalf2, .resp [])]) := by
  refine ⟨rfl, by decide, by decide, ?_⟩
  have heq := (claim_C7 trC7 entsC7 0 "413" rfl (by decide)).2 (by decide)
  rw [heq]
  have ht : entsC7.take (entsC7.length / 2) = ehalf1 := by decide
  have hd : entsC7.drop (entsC7.length / 2) = ehalf2 := by decide
  simp only [ht, hd]
  have h1 : send_with_split_on_413 trC7 ehalf1 (0 + 1) =
      (.ok [], 2, [(ehalf1, .resp [])]) := by
    rw [send_with_split_on_413]
    rfl
  have h2 : send_with_split_on_413 trC7 ehalf2 2 =
      (.ok [], 3, [(ehalf2, .resp [])]) := by
    rw [send_with_split_on_413]
    rfl
  simp [h1, h2]

/-- First entry of the C4 run. -/
def entA : Entry := ⟨"a", "pa"⟩

/-- Second entry of the C4 run. -/
def entB : Entry := ⟨"b", "pb"⟩

/-- Transport for the C4 run: the two-entry batch is rejected as oversized;
the first half `[entA]` is then accepted with `Failed = [a]` (a per-entry
failure), the second half `[entB]` is accepted cleanly. -/
def trC4 : Transport := fun n _ =>
  if n = 0 then .clientError "413" else if n = 1 then .resp ["a"] else .resp []

/-- C4 is a code bug: `_send_with_split_on_413` discards the first half's
response after a split (send_test_events.py:48 ignores the return value),
so entry `a`'s reported per-entry failure is never seen by `send_batch` —
the run succeeds, `a` is neither delivered in any call nor named in any
raised error: it is silently dropped, exactly what the spec rules out. -/
theorem claim_C4 :
    (send_batch trC4 [entA, entB] 3 ⟨5, 1⟩).1 = .ok () ∧
    runCalls (send_batch trC4 [entA, entB] 3 ⟨5, 1⟩).2 =
      [([entA, entB], .clientError "413"),
       ([entA], .resp ["a"]), ([entB], .resp [])] ∧
    delivered (runCalls (send_batch trC4 [entA, entB] 3 ⟨5, 1⟩).2) = [entB] := by
  have hA : send_with_split_on_413 trC4 [entA] (0 + 1) =
      (.ok ["a"], 2, [([entA], .resp ["a"])]) := by
    rw [send_with_split_on_413]
    rfl
  have hB : send_with_split_on_413 trC4 [entB] 2 =
      (.ok [], 3, [([entB], .resp [])]) := by
    rw [send_with_split_on_413]
    rfl
  have hsplit : send_with_split_on_413 trC4 [entA, entB] 0 =
      (.ok [], 3, [([entA, entB], .clientError "413"),
        ([entA], .resp ["a"]), ([entB], .resp [])]) := by
    rw [send_with_split_on_413]
    simp [trC4, oversizeCodes, hA, hB]
  have hmain : send_batch trC4 [entA, entB] 3 ⟨5, 1⟩ =
      (.ok (), [⟨[entA, entB], [([entA, entB], .clientError "413"),
        ([entA], .resp ["a"]), ([entB], .resp [])], [], none⟩]) := by
    simp [send_batch, send_batch_loop, hsplit]
  rw [hmain]
  refine ⟨rfl, by decide, by decide⟩

/-- Invariant of the retry loop of `send_batch`: at most `fuel` iterations
happen; the first iteration sends the given entry list; and every next
iteration sends exactly the entries whose identifiers the previous
iteration's response reported failed (looked up by identifier in that
iteration's entry list), after that iteration slept
`backoff * 2 ^ (its attempt index)`. -/
theorem send_batch_loop_spec (tr : Transport) (backoff : DecNum) :
    ∀ (fuel attempt : Nat) (entries : List Entry)
      (last : Option (List String)) (n : Nat),
    ((send_batch_loop tr backoff fuel attempt entries last n).2.length ≤ fuel) ∧
    (∀ a, (send_batch_loop tr backoff fuel attempt entries last n).2[0]? =
        some a → a.sent = entries) ∧
    (∀ i ai aj,
      (send_batch_loop tr backoff fuel attempt entries last n).2[i]? = some ai →
      (send_batch_loop tr backoff fuel attempt entries last n).2[i + 1]? = some aj →
      aj.sent = ai.reported.filterMap (lookupId ai.sent) ∧
      ai.slept = some (backoff.mul ⟨(2 : Int) ^ (attempt + i), 0⟩))
  | 0, attempt, entries, last, n => by
      cases last <;> simp [send_batch_loop]
  | fuel + 1, attempt, entries, last, n => by
      cases hs : send_with_split_on_413 tr entries n with
      | mk r rest =>
        cases rest with
        | mk n' calls =>
          cases r with
          | error e =>
              refine ⟨?_, ?_, ?_⟩
              · simp [send_batch_loop, hs]
              · intro a ha
                simp [send_batch_loop, hs] at ha
                rw [← ha]
              · intro i ai aj h1 h2
                simp [send_batch_loop, hs] at h2
          | ok failed =>
              cases hf : failed.isEmpty with
              | true =>
                  refine ⟨?_, ?_, ?_⟩
                  · simp [send_batch_loop, hs, hf]
                  · intro a ha
                    simp [send_batch_loop, hs, hf] at ha
                    rw [← ha]
                  · intro i ai aj h1 h2
                    simp [send_batch_loop, hs, hf] at h2
              | false =>
                  have ih := send_batch_loop_spec tr backoff fuel (attempt + 1)
                    (failed.filterMap (fun i => lookupId entries i))
                    (some failed) n'
                  refine ⟨?_, ?_, ?_⟩
                  · have := ih.1
                    simp only [send_batch_loop, hs, hf, Bool.false_eq_true,
                      if_false, List.length_cons]
                    omega
                  · intro a ha
                    simp only [send_batch_loop, hs, hf, Bool.false_eq_true,
                      if_false, List.getElem?_cons_zero, Option.some.injEq] at ha
                    rw [← ha]
                  · intro i ai aj h1 h2
                    simp only [send_batch_loop, hs, hf, Bool.false_eq_true,
                      if_false] at h1 h2
                    cases i with
                    | zero =>
                        rw [List.getElem?_cons_zero] at h1
                        rw [List.getElem?_cons_succ] at h2
                        have haj := ih.2.1 aj h2
                        cases h1
                        constructor
                        · simpa using haj
                        · simp
                    | succ i =>
                        rw [List.getElem?_cons_succ] at h1 h2
                        have := ih.2.2 i ai aj h1 h2
                        refine ⟨this.1, ?_⟩
                        have hexp : attempt + 1 + i = attempt + (i + 1) := by
                          omega
                        rw [this.2, hexp]

/-- C8: whenever an attempt of `send_batch` reports individually failed
entries, the next attempt consists exactly of the entries whose identifiers
were reported failed, looked up by identifier in the current entry list,
and runs only after a sleep of `backoff * 2 ^ attempt`; at most `retry`
attempts are made before the operation fails. -/
theorem claim_C8 (tr : Transport) (entries : List Entry) (retry : Nat)
    (backoff : DecNum) (res : Except String Unit)
    (attempts : List AttemptRec)
    (h : send_batch tr entries retry backoff = (res, attempts)) :
    attempts.length ≤ retry ∧
    ∀ i ai aj, attempts[i]? = some ai → attempts[i + 1]? = some aj →
      aj.sent = ai.reported.filterMap (lookupId ai.sent) ∧
      ai.slept = some (backoff.mul ⟨(2 : Int) ^ i, 0⟩) := by
  have hspec := send_batch_loop_spec tr backoff retry 0 entries none 0
  rw [send_batch] at h
  rw [h] at hspec
  refine ⟨hspec.1, fun i ai aj h1 h2 => ?_⟩
  have := hspec.2.2 i ai aj h1 h2
  simpa using this

/-- Transport for the C8 witness: the first call reports entries `3` and
`7` failed; every later call succeeds cleanly. -/
def trC8 : Transport := fun n _ =>
  if n = 0 then .resp ["3", "7"] else .resp []

/-- The two retried entries of the C8 witness. -/
def entsC8retry : List Entry := [⟨"3", "p"⟩, ⟨"7", "p"⟩]

/-- The attempt trace of the C8 witness run. -/
def attsC8 : List AttemptRec :=
  [⟨entsC7, [(entsC7, .resp ["3", "7"])], ["3", "7"], some ⟨5, 1⟩⟩,
   ⟨entsC8retry, [(entsC8retry, .resp [])], [], none⟩]

/-- Witness for C8: entries `{3, 7}` fail on the first attempt; the second
attempt sends exactly those two entries after a sleep of
`backoff * 2 ^ 0 = 0.5`, succeeds, and the loop stops within the retry
budget. -/
theorem claim_C8_witness :
    send_batch trC8 entsC7 3 ⟨5, 1⟩ = (.ok (), attsC8) ∧
    (attsC8.length ≤ 3 ∧
      ∀ i ai aj, attsC8[i]? = some ai → attsC8[i + 1]? = some aj →
        aj.sent = ai.reported.filterMap (lookupId ai.sent) ∧
        ai.slept = some ((DecNum.mk 5 1).mul ⟨(2 : Int) ^ i, 0⟩)) := by
  have hs0 : send_with_split_on_413 trC8 entsC7 0 =
      (.ok ["3", "7"], 1, [(entsC7, .resp ["3", "7"])]) := by
    rw [send_with_split_on_413]
    rfl
  have hs1 : send_with_split_on_413 trC8 entsC8retry 1 =
      (.ok [], 2, [(entsC8retry, .resp [])]) := by
    rw [send_with_split_on_413]
    rfl
  have hlk : (["3", "7"] : List String).filterMap
      (fun i => lookupId entsC7 i) = entsC8retry := by decide
  have hmain : send_batch trC8 entsC7 3 ⟨5, 1⟩ = (.ok (), attsC8) := by
    simp only [send_batch, send_batch_loop, hs0, hs1, hlk]
    simp [attsC8, DecNum.mul, entsC8retry]
  exact ⟨hmain, claim_C8 trC8 entsC7 3 ⟨5, 1⟩ (.ok ()) attsC8 hmain⟩
